import Mathlib

set_option maxRecDepth 100000

/-!
Verification of the recency-filtering and post-composition pipeline of
orcid_to_bluesky.py. Python strings are modelled as lists of characters,
optional JSON fields as Option values, and millisecond epoch timestamps as
integers. Network effects are modelled by passing the decoded response (or
none, standing for any transport or parse failure) as an argument.
-/

/-- A Python string, modelled as its list of characters. -/
abbrev PyStr := List Char

/-- MAX_CHARS from the source. -/
def MAX_CHARS : Nat := 300

/-- The placeholder title used by filter_recent. -/
def noTitle : PyStr := "(no title)".toList

/-- The DOI resolver URL base prepended to a DOI value. -/
def doiUrlBase : PyStr := "https://doi.org/".toList

/-- Python str.lower, restricted to the characters that occur here. -/
def pyLower (s : PyStr) : PyStr := s.map Char.toLower

/-- The value found at ws["title"]["title"] in a work summary, after the
defensive dict defaults: a JSON object possibly carrying a "value" string,
a JSON string, or anything else. -/
inductive TVal where
  | vdict (value : Option PyStr)
  | vstr (s : PyStr)
  | other
deriving DecidableEq

/-- Python truthiness of the raw title value: an empty string and an empty
object are falsy (line 89, tval or \x7b\x7d). An object carrying a "value"
key is nonempty hence truthy; TVal.other stands for values of other JSON
types, which land in the placeholder branch whether truthy or not. -/
def tvalFalsy : TVal → Bool
  | .vstr s => s.isEmpty
  | .vdict v => v.isNone
  | .other => false

/-- Title extraction, lines 88-95: a falsy raw value is first replaced by an
empty dict; a dict yields its "value" field or the placeholder, a string is
used verbatim, anything else yields the placeholder. -/
def extract_title (tvalRaw : TVal) : PyStr :=
  let tval := if tvalFalsy tvalRaw then TVal.vdict none else tvalRaw
  match tval with
  | .vdict v => v.getD noTitle
  | .vstr s => s
  | .other => noTitle

/-- One entry of ws["external-ids"]["external-id"]. -/
structure ExtId where
  idType : Option PyStr
  value : Option PyStr
deriving DecidableEq

/-- DOI scan, lines 97-104: first entry whose type (case-insensitive) is
"doi" and whose value is truthy sets the url and breaks; a doi-typed entry
with a falsy value does not break and scanning continues. -/
def doi_of : List ExtId → Option PyStr
  | [] => none
  | e :: rest =>
    if pyLower (e.idType.getD []) = "doi".toList then
      match e.value with
      | some v => if v = [] then doi_of rest else some (doiUrlBase ++ v)
      | none => doi_of rest
    else doi_of rest

/-- A work summary, at the granularity filter_recent probes it: the two
optional millisecond timestamps, the nested title value and the external
identifier list. -/
structure WorkSummary where
  created : Option Int
  modified : Option Int
  tval : TVal
  externalIds : List ExtId
deriving DecidableEq

/-- One element of the ORCID works "group" list. -/
structure WorkGroup where
  workSummary : List WorkSummary
deriving DecidableEq

/-- The normalized record appended by filter_recent (title, url, date). -/
structure FilteredWork where
  title : PyStr
  url : Option PyStr
  date : Int
deriving DecidableEq

/-- Python `a or b` on the two optional timestamps: an absent or zero
(falsy) first operand yields the second. -/
def pyOrInt (a b : Option Int) : Option Int :=
  match a with
  | some t => if t = 0 then b else some t
  | none => b

/-- The timestamp filter_recent ends up using, lines 76-81:
created or modified, then discarded when falsy. -/
def effTs (created modified : Option Int) : Option Int :=
  match pyOrInt created modified with
  | some t => if t = 0 then none else some t
  | none => none

/-- The cutoff instant, line 70: now minus days, in milliseconds. -/
def cutoff (days now : Int) : Int := now - days * 86400000

/-- Per-work processing of filter_recent, lines 75-112: none when the work
is skipped, otherwise the normalized record. -/
def keep_work (ws : WorkSummary) (days now : Int) : Option FilteredWork :=
  match effTs ws.created ws.modified with
  | none => none
  | some t =>
    if t < cutoff days now then none
    else some ⟨extract_title ws.tval, doi_of ws.externalIds, t⟩

/-- The descending-by-date order used on line 116 (sorted by date,
reverse=True). -/
def dateGE (a b : FilteredWork) : Prop := b.date ≤ a.date

instance : DecidableRel dateGE := fun a b => Int.decLe b.date a.date

instance : IsTotal FilteredWork dateGE := ⟨fun a b => le_total b.date a.date⟩

instance : IsTrans FilteredWork dateGE :=
  ⟨fun _ _ _ hab hbc => le_trans hbc hab⟩

/-- filter_recent, lines 65-116: collect the kept works over all groups in
order, then sort newest first (a stable sort, as Python's). -/
def filter_recent (groups : List WorkGroup) (days now : Int) : List FilteredWork :=
  List.insertionSort dateGE
    (groups.flatMap fun g => g.workSummary.filterMap fun ws => keep_work ws days now)

/-- Python tag.lstrip, line 150, for the single character '#'. -/
def lstripHash (s : PyStr) : PyStr := s.dropWhile (· = '#')

/-- Visible text of the hashtag line body, lines 149-154: each tag is shown
as '#' plus its value with leading '#' stripped, with a single space after
every tag but the last. -/
def hashtagsText : List PyStr → PyStr
  | [] => []
  | [t] => '#' :: lstripHash t
  | t :: rest => ('#' :: lstripHash t) ++ ' ' :: hashtagsText rest

/-- The DOI line contribution, lines 142-144: present only when doi_url is
truthy (not absent and not empty). -/
def doiLine : Option PyStr → PyStr
  | some d => if d = [] then [] else '\n' :: d
  | none => []

/-- The hashtag line contribution, lines 147-154: present only when the
hashtag list is nonempty. -/
def tagLine (hashtags : List PyStr) : PyStr :=
  if hashtags = [] then [] else '\n' :: hashtagsText hashtags

/-- The text rendered by make_builder, lines 131-156: the TextBuilder
concatenates the visible text of every segment (the link shows the author
name; the profile URL is only a link target and contributes no text). -/
def render (author : PyStr) (doi : Option PyStr) (hashtags : List PyStr)
    (title : PyStr) : PyStr :=
  ("New paper from ".toList ++ author) ++ ('\n' :: title)
    ++ doiLine doi ++ tagLine hashtags

/-- Decomposition at the last space: some (p, r) when the string is
p ++ ' ' :: r with r space-free, none when it has no space. -/
def rsplitLast : List Char → Option (PyStr × PyStr)
  | [] => none
  | c :: cs =>
    match rsplitLast cs with
    | some (p, r) => some (c :: p, r)
    | none => if c = ' ' then some (([] : PyStr), cs) else none

/-- Python s.rsplit(this-one-space, 1)[0], line 174. -/
def rsplitBefore (s : PyStr) : PyStr :=
  match rsplitLast s with
  | some (p, _) => p
  | none => s

/-- Title truncation, lines 171-175: take the first allowed characters,
back off to the last space when one is present, append one ellipsis. -/
def truncate_title (title : PyStr) (allowed : Nat) : PyStr :=
  let short := title.take allowed
  let short2 := if ' ' ∈ short then rsplitBefore short else short
  short2 ++ ['…']

/-- The character budget left for the title, lines 165-169: MAX_CHARS minus
the overhead of everything except the title, minus one for the ellipsis,
clamped to a minimum of 1. -/
def allowed_title_len (author title : PyStr) (doi : Option PyStr)
    (hashtags : List PyStr) : Nat :=
  let text := render author doi hashtags title
  let overhead : Int := (text.length : Int) - (title.length : Int)
  let allowed0 : Int := (MAX_CHARS : Int) - overhead - 1
  (if allowed0 ≤ 0 then 1 else allowed0).toNat

/-- The text of the builder returned by build_post_builder, lines 119-180:
the full render when it fits in MAX_CHARS, otherwise a second render with
the truncated title, returned without re-validating its length. -/
def build_post_text (author profileUrl title : PyStr) (doi : Option PyStr)
    (hashtags : List PyStr) : PyStr :=
  let _ := profileUrl
  let text := render author doi hashtags title
  if text.length ≤ MAX_CHARS then text
  else render author doi hashtags
    (truncate_title title (allowed_title_len author title doi hashtags))

/-- The fields of the person record that fetch_orcid_name probes:
name.given-names.value and name.family-name.value. An absent name object
or an absent nested field is none. -/
structure PersonName where
  givenValue : Option PyStr
  familyValue : Option PyStr
deriving DecidableEq

/-- The whitespace characters removed by Python str.strip on ASCII text. -/
def isPySpace (c : Char) : Bool :=
  c = ' ' || c = '\t' || c = '\n' || c = '\r' || c = '\x0b' || c = '\x0c'

/-- Python s.strip(): drop whitespace from both ends. -/
def pyStrip (s : PyStr) : PyStr :=
  ((s.dropWhile isPySpace).reverse.dropWhile isPySpace).reverse

/-- The space-join over the truthy parts, line 41:
" ".join(part for part in [given, family] if part). -/
def joinNameParts (given family : PyStr) : PyStr :=
  if given = [] then family
  else if family = [] then given
  else given ++ ' ' :: family

/-- fetch_orcid_name, lines 20-46; resp is the decoded person record, none
standing for any transport or parse failure (the except branch). A falsy
given-names or family-name value degrades to the empty string. -/
def fetch_orcid_name (oid : PyStr) : Option PersonName → PyStr
  | none => oid
  | some nm =>
    let given := nm.givenValue.getD []
    let family := nm.familyValue.getD []
    let full := pyStrip (joinNameParts given family)
    if full = [] then oid else full

/-- The profile URL built on line 214. -/
def orcidProfileUrl (oid : PyStr) : PyStr := "https://orcid.org/".toList ++ oid

/-- The observable outcome of one run: the text of each submitted post in
order, and the identifier of each registry HTTP request in order (one per
person lookup, one per works lookup). -/
structure RunResult where
  posts : List PyStr
  lookups : List PyStr
deriving DecidableEq

/-- The inner loop of main, lines 223-245: post the filtered works of one
identifier in order while the budget allows, returning the texts posted and
the updated counter. -/
def post_items (author profileUrl : PyStr) (hashtags : List PyStr)
    (maxPosts : Int) : List FilteredWork → Nat → List PyStr × Nat
  | [], posted => ([], posted)
  | item :: rest, posted =>
    if maxPosts ≤ (posted : Int) then ([], posted)
    else
      let p := build_post_text author profileUrl item.title item.url hashtags
      let pr := post_items author profileUrl hashtags maxPosts rest (posted + 1)
      (p :: pr.1, pr.2)

/-- The outer loop of main, lines 204-245: fetchName and fetchWorks give
the (deterministic, per-run) outcome of the two registry lookups for an
identifier; the name cache is the association list threaded through. -/
def run_ids (fetchName : PyStr → PyStr) (fetchWorks : PyStr → List WorkGroup)
    (daysBack now : Int) (hashtags : List PyStr) (maxPosts : Int) :
    List PyStr → Nat → List (PyStr × PyStr) → RunResult
  | [], _, _ => ⟨[], []⟩
  | oid :: rest, posted, cache =>
    if maxPosts ≤ (posted : Int) then ⟨[], []⟩
    else
      let hit := cache.lookup oid
      let nameLookups : List PyStr := if hit.isSome then [] else [oid]
      let cache2 := if hit.isSome then cache else (oid, fetchName oid) :: cache
      let author := (hit.getD (fetchName oid))
      let groups := fetchWorks oid
      let items := filter_recent groups daysBack now
      let pr := post_items author (orcidProfileUrl oid) hashtags maxPosts
        items posted
      let restRes := run_ids fetchName fetchWorks daysBack now hashtags
        maxPosts rest pr.2 cache2
      ⟨pr.1 ++ restRes.posts, (nameLookups ++ [oid]) ++ restRes.lookups⟩

/-- The per-run configuration keys main reads, lines 191-217. -/
structure Config where
  orcid_ids : List PyStr
  days_back : Int
  max_posts_total : Int
  hashtags : List PyStr

/-- The pure core of main, lines 198-245: the loop over identifiers with
counter 0 and an empty name cache. -/
def main_run (cfg : Config) (fetchName : PyStr → PyStr)
    (fetchWorks : PyStr → List WorkGroup) (now : Int) : RunResult :=
  run_ids fetchName fetchWorks cfg.days_back now cfg.hashtags
    cfg.max_posts_total cfg.orcid_ids 0 []

/-! ## Helper lemmas -/

theorem keep_work_of_effTs {ws : WorkSummary} {days now t : Int}
    (ht : effTs ws.created ws.modified = some t) :
    keep_work ws days now
      = if t < cutoff days now then none
        else some ⟨extract_title ws.tval, doi_of ws.externalIds, t⟩ := by
  unfold keep_work
  rw [ht]

theorem rsplitLast_none_not_mem : ∀ {s : PyStr}, rsplitLast s = none → ' ' ∉ s := by
  intro s
  induction s with
  | nil => intro _ h; exact absurd h (List.not_mem_nil ' ')
  | cons c cs ih =>
    intro h hmem
    unfold rsplitLast at h
    cases hcs : rsplitLast cs with
    | some pr => rw [hcs] at h; cases h
    | none =>
      rw [hcs] at h
      by_cases hc : c = ' '
      · simp [hc] at h
      · rcases List.mem_cons.mp hmem with h1 | h1
        · exact hc h1.symm
        · exact ih hcs h1

theorem rsplitLast_sound : ∀ {s p r : PyStr}, rsplitLast s = some (p, r) →
    s = p ++ ' ' :: r ∧ ' ' ∉ r := by
  intro s
  induction s with
  | nil => intro p r h; cases h
  | cons c cs ih =>
    intro p r h
    unfold rsplitLast at h
    cases hcs : rsplitLast cs with
    | some pr =>
      rw [hcs] at h
      obtain ⟨p0, r0⟩ := pr
      injection h with h'
      injection h' with ha hb
      obtain ⟨hcs1, hcs2⟩ := ih hcs
      subst ha
      subst hb
      exact ⟨by rw [hcs1]; rfl, hcs2⟩
    | none =>
      rw [hcs] at h
      by_cases hc : c = ' '
      · rw [if_pos hc] at h
        injection h with h'
        injection h' with ha hb
        subst ha
        subst hb
        exact ⟨by simp [hc], rsplitLast_none_not_mem hcs⟩
      · simp [hc] at h

theorem rsplitBefore_length_le (s : PyStr) : (rsplitBefore s).length ≤ s.length := by
  unfold rsplitBefore
  cases h : rsplitLast s with
  | none => exact le_refl _
  | some pr =>
    obtain ⟨p, r⟩ := pr
    obtain ⟨h1, _⟩ := rsplitLast_sound h
    rw [h1]
    simp [List.length_append]

theorem render_length (author : PyStr) (doi : Option PyStr)
    (hashtags : List PyStr) (title : PyStr) :
    (render author doi hashtags title).length
      = (render author doi hashtags []).length + title.length := by
  simp [render, List.length_append]
  omega

theorem truncate_title_length_le (title : PyStr) (a : Nat) :
    (truncate_title title a).length ≤ a + 1 := by
  have h1 : (title.take a).length ≤ a := by simp [List.length_take]
  by_cases hsp : ' ' ∈ title.take a
  · have he : truncate_title title a = rsplitBefore (title.take a) ++ ['…'] := by
      simp only [truncate_title]
      rw [if_pos hsp]
    rw [he]
    have h2 := rsplitBefore_length_le (title.take a)
    simp only [List.length_append, List.length_cons, List.length_nil]
    omega
  · have he : truncate_title title a = title.take a ++ ['…'] := by
      simp only [truncate_title]
      rw [if_neg hsp]
    rw [he]
    simp only [List.length_append, List.length_cons, List.length_nil]
    omega

theorem overhead_eq (author : PyStr) (doi : Option PyStr)
    (hashtags : List PyStr) (title : PyStr) :
    ((render author doi hashtags title).length : Int) - (title.length : Int)
      = ((render author doi hashtags []).length : Int) := by
  rw [render_length author doi hashtags title]
  push_cast
  ring

/-! ## Claim theorems -/

/-- C8: for every input group list and lookback window (and current time),
the list returned by filter_recent is sorted in non-increasing order of
each work's effective created_at date. -/
theorem filter_recent_sorted_desc (groups : List WorkGroup) (days now : Int) :
    List.Pairwise (fun a b => b.date ≤ a.date) (filter_recent groups days now) :=
  (List.sorted_insertionSort dateGE
    (groups.flatMap fun g => g.workSummary.filterMap
      fun ws => keep_work ws days now)).imp (fun hab => hab)

/-- C3: a work summary whose effective timestamp equals the cutoff exactly
is included in the output of filter_recent, and in general a work with an
effective timestamp is kept if and only if that timestamp is >= cutoff. -/
theorem filter_recent_cutoff_inclusive
    (groups : List WorkGroup) (days now : Int) (g : WorkGroup)
    (ws : WorkSummary) (t : Int)
    (hg : g ∈ groups) (hws : ws ∈ g.workSummary)
    (ht : effTs ws.created ws.modified = some t) :
    ((keep_work ws days now).isSome ↔ cutoff days now ≤ t)
      ∧ (t = cutoff days now →
          ∃ fw, keep_work ws days now = some fw
            ∧ fw ∈ filter_recent groups days now ∧ fw.date = t) := by
  constructor
  · rw [keep_work_of_effTs ht]
    split
    next h => simp; omega
    next h => simp; omega
  · intro hteq
    have hnlt : ¬ t < cutoff days now := by omega
    have hk : keep_work ws days now
        = some ⟨extract_title ws.tval, doi_of ws.externalIds, t⟩ := by
      rw [keep_work_of_effTs ht, if_neg hnlt]
    refine ⟨_, hk, ?_, rfl⟩
    have hmem : (⟨extract_title ws.tval, doi_of ws.externalIds, t⟩ : FilteredWork)
        ∈ groups.flatMap fun g2 => g2.workSummary.filterMap
            fun w => keep_work w days now :=
      List.mem_flatMap.mpr ⟨g, hg, List.mem_filterMap.mpr ⟨ws, hws, hk⟩⟩
    exact ((List.perm_insertionSort dateGE _).mem_iff).mpr hmem

/-- C3 witness: a work created exactly at the cutoff (5 days before now)
is kept and appears in the output. -/
theorem filter_recent_cutoff_inclusive_witness :
    ((keep_work ⟨some 7, none, TVal.vstr "T".toList, []⟩ 5 432000007).isSome
        ↔ cutoff 5 432000007 ≤ 7)
      ∧ (7 = cutoff 5 432000007 →
          ∃ fw, keep_work ⟨some 7, none, TVal.vstr "T".toList, []⟩ 5 432000007
              = some fw
            ∧ fw ∈ filter_recent
                [⟨[⟨some 7, none, TVal.vstr "T".toList, []⟩]⟩] 5 432000007
            ∧ fw.date = 7) :=
  filter_recent_cutoff_inclusive
    [⟨[⟨some 7, none, TVal.vstr "T".toList, []⟩]⟩] 5 432000007
    ⟨[⟨some 7, none, TVal.vstr "T".toList, []⟩]⟩
    ⟨some 7, none, TVal.vstr "T".toList, []⟩ 7
    (by decide) (by decide) (by decide)

/-- C4 counterexample: a work whose created-date is present with value 0
falls back to the last-modified-date (Python truthiness), and when only a
zero created-date is present the work is skipped; the claim says the
created-date is used whenever present and the fallback happens only when
it is absent. -/
theorem created_zero_fallback_counterexample :
    effTs (some 0) (some 1000) = some 1000
      ∧ effTs (some 0) none = none
      ∧ filter_recent [⟨[⟨some 0, some 1000, TVal.vstr "T".toList, []⟩]⟩] 30 1000
          = [⟨"T".toList, none, 1000⟩] := by decide

/-- C4 (amended): the created-date is the effective date whenever it is
present and nonzero; when it is absent or zero, the last-modified-date is
used if present and nonzero; when both are absent or zero the work is
silently skipped. -/
theorem effective_timestamp_selection (ws : WorkSummary) (days now : Int) :
    (∀ t, ws.created = some t → t ≠ 0 → effTs ws.created ws.modified = some t)
      ∧ ((ws.created = none ∨ ws.created = some 0) →
          (∀ u, ws.modified = some u → u ≠ 0 →
              effTs ws.created ws.modified = some u)
            ∧ ((ws.modified = none ∨ ws.modified = some 0) →
                effTs ws.created ws.modified = none))
      ∧ (effTs ws.created ws.modified = none → keep_work ws days now = none) := by
  refine ⟨?_, ?_, ?_⟩
  · intro t hc ht0
    simp [effTs, pyOrInt, hc, ht0]
  · intro hc
    constructor
    · intro u hm hu0
      rcases hc with h | h <;> simp [effTs, pyOrInt, h, hm, hu0]
    · intro hm
      rcases hc with h | h <;> rcases hm with h2 | h2 <;>
        simp [effTs, pyOrInt, h, h2]
  · intro he
    unfold keep_work
    rw [he]

/-- C4 witness: a nonzero created-date is used even when a modified-date is
also present. -/
theorem effective_timestamp_selection_witness :
    effTs (some 5) (some 3) = some 5 :=
  (effective_timestamp_selection ⟨some 5, some 3, TVal.other, []⟩ 0 0).1 5
    rfl (by decide)

/-- C5: the first external identifier whose type is "doi" case-insensitively
and whose value is non-empty determines doi_url, and scanning stops there:
any later entries are never consulted. -/
theorem doi_first_match_wins (pre post : List ExtId) (e : ExtId) (v : PyStr)
    (hpre : ∀ x ∈ pre, pyLower (x.idType.getD []) ≠ "doi".toList)
    (he : pyLower (e.idType.getD []) = "doi".toList)
    (hv : e.value = some v) (hv0 : v ≠ []) :
    doi_of (pre ++ e :: post) = some (doiUrlBase ++ v) := by
  induction pre with
  | nil => simp [doi_of, he, hv, hv0]
  | cons x xs ih =>
    have hx := hpre x (List.mem_cons_self x xs)
    rw [List.cons_append]
    unfold doi_of
    rw [if_neg hx]
    exact ih (fun y hy => hpre y (List.mem_cons_of_mem x hy))

/-- C5 witness: a DOI entry in upper case after a non-DOI entry wins, and a
later DOI entry is ignored. -/
theorem doi_first_match_wins_witness :
    doi_of [⟨some "issn".toList, some "123".toList⟩,
            ⟨some "DOI".toList, some "10.1/x".toList⟩,
            ⟨some "doi".toList, some "10.2/y".toList⟩]
      = some (doiUrlBase ++ "10.1/x".toList) :=
  doi_first_match_wins [⟨some "issn".toList, some "123".toList⟩]
    [⟨some "doi".toList, some "10.2/y".toList⟩]
    ⟨some "DOI".toList, some "10.1/x".toList⟩ "10.1/x".toList
    (by decide) (by decide) rfl (by decide)

/-- C6 counterexample: a plain-string title value that is empty yields the
placeholder, not the empty string verbatim as the claim states. -/
theorem empty_string_title_counterexample :
    extract_title (TVal.vstr []) = noTitle ∧ noTitle ≠ ([] : PyStr) := by
  decide

/-- C6 (amended): a structured title object yields its value field, or the
placeholder when that field is absent; a plain non-empty string is used
verbatim; an empty string and any other value yield the placeholder. -/
theorem title_extraction_cases :
    (∀ v, extract_title (TVal.vdict (some v)) = v)
      ∧ extract_title (TVal.vdict none) = noTitle
      ∧ (∀ s, s ≠ [] → extract_title (TVal.vstr s) = s)
      ∧ extract_title (TVal.vstr []) = noTitle
      ∧ extract_title TVal.other = noTitle := by
  refine ⟨?_, by decide, ?_, by decide, by decide⟩
  · intro v
    simp [extract_title, tvalFalsy]
  · intro s hs
    simp [extract_title, tvalFalsy, List.isEmpty_iff, hs]

/-- C6 witness: a non-empty plain-string title is used verbatim. -/
theorem title_extraction_cases_witness :
    extract_title (TVal.vstr "T".toList) = "T".toList :=
  title_extraction_cases.2.2.1 "T".toList (by decide)

/-- C9 counterexample: on a successful response whose given-names value is
the single space, the resolver returns the identifier, although the claim
says the identifier is returned only when both parts are empty or absent
and that present parts are joined verbatim. -/
theorem whitespace_name_counterexample :
    fetch_orcid_name "0000-0002-1825-0097".toList (some ⟨some [' '], none⟩)
        = "0000-0002-1825-0097".toList
      ∧ "0000-0002-1825-0097".toList ≠ [' '] := by decide

/-- C9 (amended): resolution never raises; on failure it returns the
identifier; on success it joins the non-empty parts with a space and strips
surrounding whitespace, returning the identifier when the stripped join is
empty (in particular when both parts are empty or absent). -/
theorem name_resolution_fail_soft (oid : PyStr) (resp : Option PersonName) :
    (resp = none → fetch_orcid_name oid resp = oid)
      ∧ (∀ nm g f, resp = some nm → nm.givenValue = some g → g ≠ []
          → nm.familyValue = some f → f ≠ []
          → pyStrip (g ++ ' ' :: f) ≠ []
          → fetch_orcid_name oid resp = pyStrip (g ++ ' ' :: f))
      ∧ (∀ nm g, resp = some nm → nm.givenValue = some g
          → (nm.familyValue = none ∨ nm.familyValue = some [])
          → pyStrip g ≠ []
          → fetch_orcid_name oid resp = pyStrip g)
      ∧ (∀ nm f, resp = some nm
          → (nm.givenValue = none ∨ nm.givenValue = some [])
          → nm.familyValue = some f
          → pyStrip f ≠ []
          → fetch_orcid_name oid resp = pyStrip f)
      ∧ (∀ nm, resp = some nm
          → pyStrip (joinNameParts (nm.givenValue.getD [])
              (nm.familyValue.getD [])) = []
          → fetch_orcid_name oid resp = oid) := by
  refine ⟨?_, ?_, ?_, ?_, ?_⟩
  · intro h
    rw [h]
    rfl
  · intro nm g f hr hg hg0 hf hf0 hs
    subst hr
    simp [fetch_orcid_name, hg, hf, joinNameParts, hg0, hf0, hs]
  · intro nm g hr hg hf hs
    subst hr
    have hg0 : g ≠ [] := by
      intro h
      rw [h] at hs
      exact hs rfl
    rcases hf with h | h <;>
      simp [fetch_orcid_name, hg, h, joinNameParts, hg0, hs]
  · intro nm f hr hg hf hs
    subst hr
    rcases hg with h | h <;>
      simp [fetch_orcid_name, h, hf, joinNameParts, hs]
  · intro nm hr hs
    subst hr
    simp [fetch_orcid_name, hs]

/-- C9 witness: a response carrying both name parts resolves to the joined
full name. -/
theorem name_resolution_fail_soft_witness :
    fetch_orcid_name "X".toList (some ⟨some "Jane".toList, some "Doe".toList⟩)
      = pyStrip ("Jane".toList ++ ' ' :: "Doe".toList) :=
  (name_resolution_fail_soft "X".toList
      (some ⟨some "Jane".toList, some "Doe".toList⟩)).2.1
    ⟨some "Jane".toList, some "Doe".toList⟩ "Jane".toList "Doe".toList
    rfl rfl (by decide) rfl (by decide) (by decide)

/-- C1 counterexample: with a 300-character author name and a two-character
title, the truncated re-render is 318 characters, exceeding MAX_CHARS: the
second render is never re-validated, so the claimed unconditional bound is
false. -/
theorem compose_overflow_counterexample :
    MAX_CHARS
      < (build_post_text (List.replicate 300 'a') [] "ab".toList none []).length := by
  decide

/-- C1 (amended): whenever everything other than the title (the name line,
the DOI line, the hashtag line and the separating newlines) occupies at
most MAX_CHARS - 2 characters, the composed text is at most MAX_CHARS
characters, for any title length, hashtag count and DOI presence. -/
theorem compose_length_bounded (author profileUrl title : PyStr)
    (doi : Option PyStr) (hashtags : List PyStr)
    (h : (render author doi hashtags []).length ≤ MAX_CHARS - 2) :
    (build_post_text author profileUrl title doi hashtags).length ≤ MAX_CHARS := by
  simp only [build_post_text]
  split
  next hfit => exact hfit
  next hlong =>
    rw [render_length]
    have hA : (allowed_title_len author title doi hashtags : Int)
        ≤ (MAX_CHARS : Int) - ((render author doi hashtags []).length : Int) - 1 := by
      simp only [allowed_title_len]
      rw [overhead_eq]
      have h28 : ((render author doi hashtags []).length : Int)
          ≤ (MAX_CHARS : Int) - 2 := by
        simp only [MAX_CHARS] at h ⊢
        omega
      rw [if_neg (by omega)]
      omega
    have hT := truncate_title_length_le title
      (allowed_title_len author title doi hashtags)
    simp only [MAX_CHARS] at hA ⊢
    omega

/-- C1 witness: a 400-character title with a short author name composes to
at most MAX_CHARS characters. -/
theorem compose_length_bounded_witness :
    (build_post_text "Jane Doe".toList [] (List.replicate 400 'x') none
        []).length ≤ MAX_CHARS :=
  compose_length_bounded "Jane Doe".toList [] (List.replicate 400 'x') none []
    (by decide)

/-- C7: when the composer must truncate and the truncated slice (the first
allowed characters of the title) contains a space, the output is rendered
with the title cut at the last space boundary of that slice followed by a
single ellipsis character, so the trailing partial word is dropped. -/
theorem truncation_word_boundary (author profileUrl title : PyStr)
    (doi : Option PyStr) (hashtags : List PyStr)
    (hlong : MAX_CHARS < (render author doi hashtags title).length)
    (hsp : ' ' ∈ title.take (allowed_title_len author title doi hashtags)) :
    ∃ pre rest,
      title.take (allowed_title_len author title doi hashtags)
          = pre ++ ' ' :: rest
        ∧ ' ' ∉ rest
        ∧ build_post_text author profileUrl title doi hashtags
            = render author doi hashtags (pre ++ ['…']) := by
  cases hr : rsplitLast (title.take (allowed_title_len author title doi hashtags)) with
  | none => exact absurd hsp (rsplitLast_none_not_mem hr)
  | some pr =>
    obtain ⟨p, r⟩ := pr
    obtain ⟨h1, h2⟩ := rsplitLast_sound hr
    refine ⟨p, r, h1, h2, ?_⟩
    have hb : build_post_text author profileUrl title doi hashtags
        = render author doi hashtags
            (truncate_title title (allowed_title_len author title doi hashtags)) := by
      simp only [build_post_text]
      rw [if_neg (by omega)]
    rw [hb]
    have ht : truncate_title title (allowed_title_len author title doi hashtags)
        = p ++ ['…'] := by
      simp only [truncate_title]
      rw [if_pos hsp]
      unfold rsplitBefore
      rw [hr]
    rw [ht]

/-- C7 witness: a 351-character title consisting of two words splits at its
space boundary, and the composed text is the render of the first word plus
an ellipsis. -/
theorem truncation_word_boundary_witness :
    ∃ pre rest,
      (List.replicate 175 'w' ++ ' ' :: List.replicate 175 'x').take
          (allowed_title_len ['A']
            (List.replicate 175 'w' ++ ' ' :: List.replicate 175 'x') none [])
          = pre ++ ' ' :: rest
        ∧ ' ' ∉ rest
        ∧ build_post_text ['A'] []
              (List.replicate 175 'w' ++ ' ' :: List.replicate 175 'x') none []
            = render ['A'] none [] (pre ++ ['…']) :=
  truncation_word_boundary ['A'] []
    (List.replicate 175 'w' ++ ' ' :: List.replicate 175 'x') none []
    (by decide) (by decide)

theorem post_items_stop (author profileUrl : PyStr) (hashtags : List PyStr)
    (m : Int) (items : List FilteredWork) (posted : Nat)
    (h : m ≤ (posted : Int)) :
    post_items author profileUrl hashtags m items posted = ([], posted) := by
  cases items with
  | nil => rfl
  | cons it rest =>
    unfold post_items
    rw [if_pos h]

theorem post_items_snd_eq (author profileUrl : PyStr) (hashtags : List PyStr)
    (m : Int) : ∀ (items : List FilteredWork) (posted : Nat),
    (post_items author profileUrl hashtags m items posted).2
      = posted + (post_items author profileUrl hashtags m items posted).1.length := by
  intro items
  induction items with
  | nil => intro posted; rfl
  | cons it rest ih =>
    intro posted
    unfold post_items
    by_cases hb : m ≤ (posted : Int)
    · rw [if_pos hb]
      simp
    · rw [if_neg hb]
      have := ih (posted + 1)
      simp only [List.length_cons]
      omega

theorem post_items_snd_le (author profileUrl : PyStr) (hashtags : List PyStr)
    (m : Int) : ∀ (items : List FilteredWork) (posted : Nat),
    (posted : Int) < m →
    ((post_items author profileUrl hashtags m items posted).2 : Int) ≤ m := by
  intro items
  induction items with
  | nil => intro posted h; exact le_of_lt h
  | cons it rest ih =>
    intro posted h
    unfold post_items
    rw [if_neg (by omega)]
    by_cases h2 : ((posted + 1 : Nat) : Int) < m
    · exact ih (posted + 1) h2
    · have hs := post_items_stop author profileUrl hashtags m rest (posted + 1)
        (by omega)
      simp only [hs]
      push_cast
      omega


theorem run_ids_cons (fetchName : PyStr → PyStr)
    (fetchWorks : PyStr → List WorkGroup) (daysBack now : Int)
    (hashtags : List PyStr) (m : Int) (oid : PyStr) (rest : List PyStr)
    (posted : Nat) (cache : List (PyStr × PyStr))
    (hb : ¬ m ≤ (posted : Int)) :
    run_ids fetchName fetchWorks daysBack now hashtags m (oid :: rest)
        posted cache
      = ⟨(post_items ((cache.lookup oid).getD (fetchName oid))
            (orcidProfileUrl oid) hashtags m
            (filter_recent (fetchWorks oid) daysBack now) posted).1
          ++ (run_ids fetchName fetchWorks daysBack now hashtags m rest
              (post_items ((cache.lookup oid).getD (fetchName oid))
                (orcidProfileUrl oid) hashtags m
                (filter_recent (fetchWorks oid) daysBack now) posted).2
              (if (cache.lookup oid).isSome then cache
               else (oid, fetchName oid) :: cache)).posts,
         ((if (cache.lookup oid).isSome then ([] : List PyStr) else [oid])
            ++ [oid])
          ++ (run_ids fetchName fetchWorks daysBack now hashtags m rest
              (post_items ((cache.lookup oid).getD (fetchName oid))
                (orcidProfileUrl oid) hashtags m
                (filter_recent (fetchWorks oid) daysBack now) posted).2
              (if (cache.lookup oid).isSome then cache
               else (oid, fetchName oid) :: cache)).lookups⟩ := by
  simp only [run_ids]
  rw [if_neg hb]

theorem run_ids_posts_le (fetchName : PyStr → PyStr)
    (fetchWorks : PyStr → List WorkGroup) (daysBack now : Int)
    (hashtags : List PyStr) (m : Int) :
    ∀ (ids : List PyStr) (posted : Nat) (cache : List (PyStr × PyStr)),
      ((run_ids fetchName fetchWorks daysBack now hashtags m ids posted
          cache).posts.length : Int) + posted ≤ m
        ∨ (run_ids fetchName fetchWorks daysBack now hashtags m ids posted
            cache).posts = [] := by
  intro ids
  induction ids with
  | nil => intro posted cache; right; rfl
  | cons oid rest ih =>
    intro posted cache
    by_cases hb : m ≤ (posted : Int)
    · right
      unfold run_ids
      rw [if_pos hb]
    · rw [run_ids_cons fetchName fetchWorks daysBack now hashtags m oid rest
        posted cache hb]
      set author := (cache.lookup oid).getD (fetchName oid) with hauthor
      set items := filter_recent (fetchWorks oid) daysBack now with hitems
      set cache2 := (if (cache.lookup oid).isSome then cache
        else (oid, fetchName oid) :: cache) with hcache2
      set pr := post_items author (orcidProfileUrl oid) hashtags m items
        posted with hpr
      have hsnd : pr.2 = posted + pr.1.length :=
        post_items_snd_eq author (orcidProfileUrl oid) hashtags m items posted
      have hple : (pr.2 : Int) ≤ m :=
        post_items_snd_le author (orcidProfileUrl oid) hashtags m items posted
          (by omega)
      left
      dsimp only
      rcases ih pr.2 cache2 with h | h
      · simp only [List.length_append]
        push_cast at h ⊢
        omega
      · rw [h, List.append_nil]
        omega

/-- C2: the orchestrator submits at most max_posts_total posts in total
across all identifiers, and in the scenario of two configured identifiers
with max_posts_total = 1 and one qualifying work each, exactly one post is
submitted, for the first identifier's newest work. -/
theorem orchestrator_post_budget :
    (∀ (cfg : Config) (fetchName : PyStr → PyStr)
        (fetchWorks : PyStr → List WorkGroup) (now : Int),
        (main_run cfg fetchName fetchWorks now).posts.length
          ≤ cfg.max_posts_total.toNat)
      ∧ (∀ (id1 id2 : PyStr) (fetchName : PyStr → PyStr)
          (fetchWorks : PyStr → List WorkGroup) (now days : Int)
          (tags : List PyStr) (w1 w2 : FilteredWork),
          filter_recent (fetchWorks id1) days now = [w1] →
          filter_recent (fetchWorks id2) days now = [w2] →
          (main_run ⟨[id1, id2], days, 1, tags⟩ fetchName fetchWorks now).posts
            = [build_post_text (fetchName id1) (orcidProfileUrl id1)
                w1.title w1.url tags]) := by
  constructor
  · intro cfg fetchName fetchWorks now
    rcases run_ids_posts_le fetchName fetchWorks cfg.days_back now
        cfg.hashtags cfg.max_posts_total cfg.orcid_ids 0 [] with h | h
    · unfold main_run
      omega
    · unfold main_run
      rw [h]
      simp
  · intro id1 id2 fetchName fetchWorks now days tags w1 w2 h1 h2
    norm_num [main_run, run_ids, post_items, List.lookup, h1, h2]

/-- C2 witness: two identifiers, budget one, one qualifying work each:
exactly the first identifier's work is posted. -/
theorem orchestrator_post_budget_witness :
    (main_run ⟨["A".toList, "B".toList], 0, 1, []⟩ (fun o => o)
        (fun o => if o = "A".toList
          then [⟨[⟨some 1000, none, TVal.vstr "T1".toList, []⟩]⟩]
          else [⟨[⟨some 900, none, TVal.vstr "T2".toList, []⟩]⟩]) 900).posts
      = [build_post_text "A".toList (orcidProfileUrl "A".toList)
          "T1".toList none []] :=
  orchestrator_post_budget.2 "A".toList "B".toList (fun o => o)
    (fun o => if o = "A".toList
      then [⟨[⟨some 1000, none, TVal.vstr "T1".toList, []⟩]⟩]
      else [⟨[⟨some 900, none, TVal.vstr "T2".toList, []⟩]⟩]) 900 0 []
    ⟨"T1".toList, none, 1000⟩ ⟨"T2".toList, none, 900⟩
    (by decide) (by decide)

/-- C10: with a zero or negative post budget, a run submits no posts and
performs no registry lookups at all: the loop exits at the first
identifier before any name resolution or works fetch. -/
theorem zero_budget_no_activity (cfg : Config) (fetchName : PyStr → PyStr)
    (fetchWorks : PyStr → List WorkGroup) (now : Int)
    (h : cfg.max_posts_total ≤ 0) :
    main_run cfg fetchName fetchWorks now = ⟨[], []⟩ := by
  unfold main_run
  cases hids : cfg.orcid_ids with
  | nil => rfl
  | cons a rest =>
    simp only [run_ids]
    rw [if_pos (show cfg.max_posts_total ≤ ((0 : Nat) : Int) by omega)]

/-- C10 witness: a configured identifier with budget zero produces no posts
and no lookups. -/
theorem zero_budget_no_activity_witness :
    main_run ⟨["A".toList], 30, 0, []⟩ (fun o => o) (fun _ => []) 0
      = ⟨[], []⟩ :=
  zero_budget_no_activity ⟨["A".toList], 30, 0, []⟩ (fun o => o)
    (fun _ => []) 0 (by decide)
